import Mathlib

/-!
Verification of the sesam-deployer GitHub action (`src/deployer.py`).

The Python program is embedded shallowly:

* The configuration folder is modelled by `ConfigTree`: a list of files
  (relative directory components plus file name), the base name of the
  folder itself, and the content of `deployment/whitelist.txt` when that
  file exists.
* `create_zipped_config` is modelled as a pure function from the tree and
  an I/O-failure oracle to `Option Bundle`; `none` models the `except`
  branch that logs and returns `None`.
* The orchestration (`main`, `deploy_secrets`, `deploy_variables`,
  `deploy_config`) is modelled by functions that return a Python-style
  outcome (`Except String Unit`, `.error` modelling a raised exception)
  together with the list of observable events (node calls and step
  starts).  External behaviour (JSON parse results, node call results,
  node health) is supplied by a `World` oracle.  `SesamNode` construction
  and JWT decoding are display-only diagnostics and are modelled as
  total.
-/

/-- Python `str.lower`, as applied to flag values (ASCII case
folding), written over the character list so that it evaluates by
kernel reduction. -/
def strLower (s : String) : String :=
  ⟨s.data.map Char.toLower⟩

/-- Python `str.strip`: drop whitespace from both ends of a line. -/
def strTrim (s : String) : String :=
  ⟨((s.data.dropWhile Char.isWhitespace).reverse.dropWhile Char.isWhitespace).reverse⟩

/-- The first string starts the second (used to model a relative path
naming a directory that contains some file). -/
def strStarts (p s : String) : Bool :=
  p.data.isPrefixOf s.data

/-- Python `str.endswith`, used for the `conf.json` suffix test. -/
def strEndsWith (s suff : String) : Bool :=
  suff.data.isSuffixOf s.data

/-- A file in the configuration folder: the directory components of its
path relative to the folder root, and its file name. -/
structure FileEntry where
  dirs : List String
  name : String
deriving DecidableEq, Repr

/-- `os.path.relpath(file_path, input_folder)`: the path of the file
relative to the configuration root, components joined by `/`. -/
def relpath (e : FileEntry) : String :=
  String.intercalate "/" (e.dirs ++ [e.name])

/-- The configuration folder: base name of the root directory (used by
`os.walk`, whose first visited root is the folder itself), the files it
contains, and the lines of `deployment/whitelist.txt` when that file
exists (`none` when it does not). -/
structure ConfigTree where
  rootBase : String
  files : List FileEntry
  whitelistContent : Option (List String)
deriving Repr

/-- `os.path.basename(root)` for the directory a file sits in: the last
directory component, or the root folder's base name for root-level
files. -/
def parentBase (t : ConfigTree) (e : FileEntry) : String :=
  (e.dirs.getLast?).getD t.rootBase

/-- A relative path names an existing file of the tree. -/
def fileExists (t : ConfigTree) (s : String) : Bool :=
  t.files.any (fun e => relpath e == s)

/-- A relative path names an existing (non-empty) directory of the tree. -/
def dirExists (t : ConfigTree) (s : String) : Bool :=
  t.files.any (fun e => strStarts (s ++ "/") (relpath e))

/-- `os.path.exists(os.path.join(input_folder, s))`: the empty string
joins to the folder itself (which exists while it is being walked), and
otherwise the path must name a file or a directory. -/
def pathExists (t : ConfigTree) (s : String) : Bool :=
  s == "" || fileExists t s || dirExists t s

/-- The whitelist set built in `create_zipped_config`: each line of
`deployment/whitelist.txt` is stripped and kept when the path it names
exists under the configuration root; a missing whitelist file yields the
empty set. -/
def whitelistFiles (t : ConfigTree) : List String :=
  match t.whitelistContent with
  | none => []
  | some lines => (lines.map (fun l => strTrim l)).filter (fun l => pathExists t l)

/-- The archive written by `create_zipped_config`: whether the root
`node-metadata.conf.json` entry was written, and the files written while
walking the tree (each becomes the zip entry named by its `relpath`). -/
structure Bundle where
  metadataIncluded : Bool
  entries : List FileEntry
deriving DecidableEq, Repr

/-- The per-file condition of the `os.walk` loop of
`create_zipped_config`: the file sits directly in a directory whose base
name is `pipes` or `systems`, in whitelist mode its relative path is in
the whitelist set, and its name ends with `conf.json`. -/
def walkIncluded (t : ConfigTree) (whitelist : Bool) (wlFiles : List String)
    (e : FileEntry) : Bool :=
  (parentBase t e == "pipes" || parentBase t e == "systems")
    && (!whitelist || wlFiles.contains (relpath e))
    && strEndsWith e.name "conf.json"

/-- The archive content produced by a successful run of
`create_zipped_config` on the tree. -/
def buildBundle (t : ConfigTree) (whitelist : Bool) : Bundle :=
  let wlFiles := if whitelist then whitelistFiles t else []
  { metadataIncluded :=
      pathExists t "node-metadata.conf.json"
        && (!whitelist || wlFiles.contains "node-metadata.conf.json")
    entries := t.files.filter (walkIncluded t whitelist wlFiles) }

/-- `create_zipped_config`: any `FileNotFoundError`, `PermissionError` or
`IOError` inside the `try` block (modelled by the `ioError` oracle) is
caught, logged, and turned into `None`; otherwise the function returns
the written archive. -/
def create_zipped_config (t : ConfigTree) (ioError : Bool) (whitelist : Bool) :
    Option Bundle :=
  if ioError then none else some (buildBundle t whitelist)

/-- Observable events of a run: the health check, the start of each
deployment step (the `=> deploying ...` log line), and the node calls
that mutate the node. -/
inductive Event where
  | healthCheck
  | startSecrets
  | startVariables
  | startConfig
  | secretsReplace
  | secretsCreate
  | variablesUpload
  | configUpload (force : Bool)
deriving DecidableEq, Repr

/-- An event is a mutating node call (secrets create or replace,
variables upload, config upload); the health check and the step-start
log lines are not. -/
def isMutating : Event → Bool
  | .secretsReplace => true
  | .secretsCreate => true
  | .variablesUpload => true
  | .configUpload _ => true
  | _ => false

/-- External behaviour of one run: the configuration folder's content,
whether packaging hits an I/O error, the result of `read_json_file` per
path (`.error` models a raised `FileNotFoundError` or JSON decode
`ValueError`), the `status` field of the health response, and the
outcome of each mutating node call (`.error` models a raised
exception). -/
structure World where
  tree : ConfigTree
  packagingIoError : Bool
  readJson : String → Except String Unit
  health : Option String
  putSecretsResult : Except String Unit
  postSecretsResult : Except String Unit
  putEnvResult : Except String Unit
  putConfigResult : Except String Unit

/-- The environment variables supplied to the action (`None` when the
variable is unset). -/
structure Env where
  node : Option String
  jwt : Option String
  configFolder : Option String
  forceConfig : Option String
  secretsFile : Option String
  replaceSecrets : Option String
  variablesFile : Option String
  useWhitelist : Option String
  dryRun : Option String
  writeSummary : Option String

/-- `check_required_env_vars`: true exactly when no required variable is
unset (the Python code only tests `is None`). -/
def check_required_env_vars (vals : List (Option String)) : Bool :=
  (vals.filter (fun v => v.isNone)).isEmpty

/-- `parse_bool_env`: lower-case the value; `true`/`1`/`yes` give true,
`false`/`0`/`no` give false, anything else (and `None`) gives the
default.  `main` always calls it with the Python default `False`. -/
def parse_bool_env (envValue : Option String) (default : Bool) : Bool :=
  match envValue with
  | none => default
  | some v =>
    let w := strLower v
    if w == "true" || w == "1" || w == "yes" then true
    else if w == "false" || w == "0" || w == "no" then false
    else default

/-- Python truthiness of an optional string (`if secrets_file:`): unset
and the empty string are falsy. -/
def truthy : Option String → Bool
  | none => false
  | some s => !(s == "")

/-- `deploy_secrets`: if a secrets file is (truthily) given, parse it
(raising aborts the step), then under dry run stop before any node
call; otherwise make exactly one `put_secrets` or `post_secrets` call
according to `replace_secrets`. -/
def deploy_secrets (w : World) (secretsFile : Option String)
    (dryRun replaceSecrets : Bool) : Except String Unit × List Event :=
  if truthy secretsFile then
    match w.readJson (secretsFile.getD "") with
    | .error e => (.error e, [.startSecrets])
    | .ok _ =>
      if dryRun then (.ok (), [.startSecrets])
      else if replaceSecrets then (w.putSecretsResult, [.startSecrets, .secretsReplace])
      else (w.postSecretsResult, [.startSecrets, .secretsCreate])
  else (.ok (), [])

/-- `deploy_variables`: if a variables file is given, parse it, then
under dry run stop before any node call; otherwise make one `put_env`
call. -/
def deploy_variables (w : World) (variablesFile : Option String)
    (dryRun : Bool) : Except String Unit × List Event :=
  if truthy variablesFile then
    match w.readJson (variablesFile.getD "") with
    | .error e => (.error e, [.startVariables])
    | .ok _ =>
      if dryRun then (.ok (), [.startVariables])
      else (w.putEnvResult, [.startVariables, .variablesUpload])
  else (.ok (), [])

/-- `deploy_config`: if a config folder is given, package it (before the
dry-run test), then under dry run stop; otherwise `open(zip_path)` — a
`None` path from failed packaging raises a `TypeError` — and make one
`put_config` call with the force flag. -/
def deploy_config (w : World) (configFolder : Option String)
    (dryRun useWhitelist forceConfig : Bool) : Except String Unit × List Event :=
  if truthy configFolder then
    let zipPath := create_zipped_config w.tree w.packagingIoError useWhitelist
    if dryRun then (.ok (), [.startConfig])
    else
      match zipPath with
      | none => (.error "TypeError: open(None)", [.startConfig])
      | some _ => (w.putConfigResult, [.startConfig, .configUpload forceConfig])
  else (.ok (), [])

/-- The dry-run flag as `main` computes it: the env value with Python
default string `"True"` when unset, parsed with default `False`. -/
def dryRunOf (env : Env) : Bool :=
  parse_bool_env (some (env.dryRun.getD "True")) false

/-- The replace-secrets flag as `main` computes it. -/
def replaceSecretsOf (env : Env) : Bool :=
  parse_bool_env (some (env.replaceSecrets.getD "False")) false

/-- The use-whitelist flag as `main` computes it. -/
def useWhitelistOf (env : Env) : Bool :=
  parse_bool_env (some (env.useWhitelist.getD "False")) false

/-- The force-config flag as `main` computes it. -/
def forceConfigOf (env : Env) : Bool :=
  parse_bool_env (some (env.forceConfig.getD "False")) false

/-- `main`: exit code together with the events of the run.  Missing
required variables exit 1 before the node is contacted; a health status
other than `ok` exits 1 after the health check; the three deployment
steps then run in sequence inside one `try` block, so the first raised
exception ends the run with exit code 1 (`SystemExit` from the health
branch is not caught by `except Exception`). -/
def mainRun (env : Env) (w : World) : Nat × List Event :=
  if !check_required_env_vars [env.node, env.jwt, env.configFolder] then (1, [])
  else if w.health != some "ok" then (1, [.healthCheck])
  else
    let s := deploy_secrets w env.secretsFile (dryRunOf env) (replaceSecretsOf env)
    match s.1 with
    | .error _ => (1, .healthCheck :: s.2)
    | .ok _ =>
      let v := deploy_variables w env.variablesFile (dryRunOf env)
      match v.1 with
      | .error _ => (1, .healthCheck :: (s.2 ++ v.2))
      | .ok _ =>
        let c := deploy_config w env.configFolder (dryRunOf env)
            (useWhitelistOf env) (forceConfigOf env)
        match c.1 with
        | .error _ => (1, .healthCheck :: (s.2 ++ v.2 ++ c.2))
        | .ok _ => (0, .healthCheck :: (s.2 ++ v.2 ++ c.2))

/-- A Python call raised an exception (modelled as `.error`). -/
def raised : Except String Unit → Bool
  | .error _ => true
  | .ok _ => false

/-- Every event emitted by the secrets step is its start line, a
replace call (only when `replaceSecrets`), or a create call (only when
not). -/
theorem deploy_secrets_events (w : World) (sf : Option String) (d r : Bool) :
    ∀ ev ∈ (deploy_secrets w sf d r).2,
      ev = Event.startSecrets ∨ (r = true ∧ ev = Event.secretsReplace)
        ∨ (r = false ∧ ev = Event.secretsCreate) := by
  intro ev hev
  unfold deploy_secrets at hev
  split at hev
  · split at hev
    · simp at hev
      simp [hev]
    · split at hev
      · simp at hev
        simp [hev]
      · split at hev
        · rename_i hr
          rcases (List.mem_cons.mp hev) with h | h
          · simp [h]
          · simp at h
            simp [h, hr]
        · rename_i hr
          rcases (List.mem_cons.mp hev) with h | h
          · simp [h]
          · simp at h
            simp [h, Bool.of_not_eq_true hr]
  · simp at hev

/-- Every event emitted by the variables step is its start line or a
variables upload. -/
theorem deploy_variables_events (w : World) (vf : Option String) (d : Bool) :
    ∀ ev ∈ (deploy_variables w vf d).2,
      ev = Event.startVariables ∨ ev = Event.variablesUpload := by
  intro ev hev
  unfold deploy_variables at hev
  split at hev
  · split at hev
    · simp at hev
      simp [hev]
    · split at hev
      · simp at hev
        simp [hev]
      · rcases (List.mem_cons.mp hev) with h | h
        · simp [h]
        · simp at h
          simp [h]
  · simp at hev

/-- Every event emitted by the config step is its start line or a
config upload with the run's force flag. -/
theorem deploy_config_events (w : World) (cf : Option String) (d u f : Bool) :
    ∀ ev ∈ (deploy_config w cf d u f).2,
      ev = Event.startConfig ∨ ev = Event.configUpload f := by
  intro ev hev
  unfold deploy_config at hev
  split at hev
  · cases hz : create_zipped_config w.tree w.packagingIoError u with
    | none =>
      simp only [hz] at hev
      split at hev
      · simp at hev
        simp [hev]
      · simp at hev
        simp [hev]
    | some b =>
      simp only [hz] at hev
      split at hev
      · simp at hev
        simp [hev]
      · rcases (List.mem_cons.mp hev) with h | h
        · simp [h]
        · simp at h
          simp [h]
  · simp at hev

/-- When the required variables are present and the node is healthy,
`main` runs the three steps in order inside one `try` block: the first
raised exception ends the run with exit code 1 and cuts the remaining
steps off the trace. -/
theorem mainRun_eq (env : Env) (w : World)
    (hreq : check_required_env_vars [env.node, env.jwt, env.configFolder] = true)
    (hok : w.health = some "ok") :
    mainRun env w =
      (let s := deploy_secrets w env.secretsFile (dryRunOf env) (replaceSecretsOf env)
       if raised s.1 then (1, Event.healthCheck :: s.2) else
       let v := deploy_variables w env.variablesFile (dryRunOf env)
       if raised v.1 then (1, Event.healthCheck :: (s.2 ++ v.2)) else
       let c := deploy_config w env.configFolder (dryRunOf env)
           (useWhitelistOf env) (forceConfigOf env)
       if raised c.1 then (1, Event.healthCheck :: (s.2 ++ v.2 ++ c.2))
       else (0, Event.healthCheck :: (s.2 ++ v.2 ++ c.2))) := by
  unfold mainRun
  rw [hreq, hok]
  simp only [Bool.not_true, Bool.false_eq_true, if_false, bne_self_eq_false]
  cases hs : (deploy_secrets w env.secretsFile (dryRunOf env) (replaceSecretsOf env)).1 with
  | error e => simp [hs, raised]
  | ok u =>
    cases u
    simp only [hs, raised, Bool.false_eq_true, if_false]
    cases hv : (deploy_variables w env.variablesFile (dryRunOf env)).1 with
    | error e => simp [hv, raised]
    | ok u =>
      cases u
      simp only [hv, raised, Bool.false_eq_true, if_false]
      cases hc : (deploy_config w env.configFolder (dryRunOf env)
          (useWhitelistOf env) (forceConfigOf env)).1 with
      | error e => simp [hc, raised]
      | ok u =>
        cases u
        simp [hc, raised]

/-- Claim C3: a file of the configuration tree is written to the bundle
iff it sits directly in a directory whose base name is exactly `pipes`
or `systems`, its name ends with `conf.json`, and the whitelist is
disabled or its path relative to the configuration root is in the
whitelist set; additionally the root `node-metadata.conf.json` entry is
written iff it exists and the whitelist is disabled or lists it. -/
theorem bundle_membership (t : ConfigTree) (wl : Bool) :
    (∀ e ∈ t.files,
      (e ∈ (buildBundle t wl).entries ↔
        (parentBase t e = "pipes" ∨ parentBase t e = "systems")
          ∧ strEndsWith e.name "conf.json" = true
          ∧ (wl = false ∨ relpath e ∈ whitelistFiles t)))
    ∧ ((buildBundle t wl).metadataIncluded = true ↔
        pathExists t "node-metadata.conf.json" = true
          ∧ (wl = false ∨ "node-metadata.conf.json" ∈ whitelistFiles t)) := by
  cases wl
  · constructor
    · intro e he
      simp [buildBundle, walkIncluded, List.mem_filter, he, and_assoc]
    · simp [buildBundle]
  · constructor
    · intro e he
      simp [buildBundle, walkIncluded, List.mem_filter, he, and_assoc]
      intro _
      exact and_comm
    · simp [buildBundle]

/-- The zip entry names of a bundle: the optional root metadata entry
followed by the walked files, each named by its path relative to the
configuration root. -/
def arcnames (b : Bundle) : List String :=
  (if b.metadataIncluded then ["node-metadata.conf.json"] else [])
    ++ b.entries.map relpath

/-- Enabling the whitelist can only drop the metadata entry, never add it. -/
theorem buildBundle_metadata_mono (t : ConfigTree) :
    (buildBundle t true).metadataIncluded = true →
    (buildBundle t false).metadataIncluded = true := by
  simp only [buildBundle, Bool.and_eq_true]
  intro h
  simp [h.1]

/-- Enabling the whitelist can only drop walked files, never add them. -/
theorem buildBundle_entries_mono (t : ConfigTree) (e : FileEntry) :
    e ∈ (buildBundle t true).entries → e ∈ (buildBundle t false).entries := by
  intro h
  simp only [buildBundle] at h ⊢
  rw [List.mem_filter] at h ⊢
  refine ⟨h.1, ?_⟩
  have h2 := h.2
  unfold walkIncluded at h2 ⊢
  simp only [Bool.and_eq_true, Bool.or_eq_true] at h2 ⊢
  exact ⟨⟨h2.1.1, by simp⟩, h2.2⟩

/-- Claim C8: whitelist filtering is purely restrictive: every zip
entry of the bundle built with the whitelist enabled is also a zip
entry of the bundle built from the same tree with the whitelist
disabled. -/
theorem whitelist_restrictive (t : ConfigTree) :
    ∀ s ∈ arcnames (buildBundle t true), s ∈ arcnames (buildBundle t false) := by
  intro s hs
  unfold arcnames at hs ⊢
  rcases List.mem_append.mp hs with h | h
  · apply List.mem_append.mpr
    left
    rcases hm : (buildBundle t true).metadataIncluded with _ | _
    · rw [hm] at h
      simp at h
    · rw [hm] at h
      rw [buildBundle_metadata_mono t hm]
      exact h
  · apply List.mem_append.mpr
    right
    rcases List.mem_map.mp h with ⟨e, he, rfl⟩
    exact List.mem_map.mpr ⟨e, buildBundle_entries_mono t e he, rfl⟩

/-- A falsy secrets source skips the secrets step entirely. -/
theorem deploy_secrets_skip (w : World) (sf : Option String) (d r : Bool)
    (h : truthy sf = false) : deploy_secrets w sf d r = (.ok (), []) := by
  simp [deploy_secrets, h]

/-- A falsy variables source skips the variables step entirely. -/
theorem deploy_variables_skip (w : World) (vf : Option String) (d : Bool)
    (h : truthy vf = false) : deploy_variables w vf d = (.ok (), []) := by
  simp [deploy_variables, h]

/-- A present secrets source with malformed JSON raises right after the
step's start line, before the dry-run test and before any node call. -/
theorem deploy_secrets_parse_error (w : World) (sf : Option String) (d r : Bool)
    (m : String) (h1 : truthy sf = true) (h2 : w.readJson (sf.getD "") = .error m) :
    deploy_secrets w sf d r = (.error m, [.startSecrets]) := by
  simp [deploy_secrets, h1, h2]

/-- A present variables source with malformed JSON raises right after
the step's start line. -/
theorem deploy_variables_parse_error (w : World) (vf : Option String) (d : Bool)
    (m : String) (h1 : truthy vf = true) (h2 : w.readJson (vf.getD "") = .error m) :
    deploy_variables w vf d = (.error m, [.startVariables]) := by
  simp [deploy_variables, h1, h2]

/-- A present, well-formed secrets source with dry run off makes exactly
one node call: replace when `replace_secrets`, create otherwise. -/
theorem deploy_secrets_live (w : World) (sf : Option String) (r : Bool)
    (h1 : truthy sf = true) (h2 : w.readJson (sf.getD "") = .ok ()) :
    deploy_secrets w sf false r =
      (if r then w.putSecretsResult else w.postSecretsResult,
       [.startSecrets, if r then Event.secretsReplace else Event.secretsCreate]) := by
  cases r <;> simp [deploy_secrets, h1, h2]

/-- With dry run on, the secrets step emits at most its start line. -/
theorem deploy_secrets_dry_events (w : World) (sf : Option String) (r : Bool) :
    ∀ ev ∈ (deploy_secrets w sf true r).2, ev = Event.startSecrets := by
  intro ev hev
  unfold deploy_secrets at hev
  split at hev
  · split at hev <;> simp_all
  · simp at hev

/-- With dry run on, the variables step emits at most its start line. -/
theorem deploy_variables_dry_events (w : World) (vf : Option String) :
    ∀ ev ∈ (deploy_variables w vf true).2, ev = Event.startVariables := by
  intro ev hev
  unfold deploy_variables at hev
  split at hev
  · split at hev <;> simp_all
  · simp at hev

/-- With dry run on, the config step packages but emits at most its
start line: no upload call. -/
theorem deploy_config_dry_events (w : World) (cf : Option String) (u f : Bool) :
    ∀ ev ∈ (deploy_config w cf true u f).2, ev = Event.startConfig := by
  intro ev hev
  unfold deploy_config at hev
  split at hev
  · simp at hev
    exact hev
  · simp at hev

/-- When the required variables are present, `main` always performs the
health check. -/
theorem mainRun_health_mem (env : Env) (w : World)
    (hreq : check_required_env_vars [env.node, env.jwt, env.configFolder] = true) :
    Event.healthCheck ∈ (mainRun env w).2 := by
  unfold mainRun
  rw [hreq]
  simp only [Bool.not_true, Bool.false_eq_true, if_false]
  split
  · simp
  · cases hs : (deploy_secrets w env.secretsFile (dryRunOf env) (replaceSecretsOf env)).1 with
    | error e => simp
    | ok u =>
      cases u
      cases hv : (deploy_variables w env.variablesFile (dryRunOf env)).1 with
      | error e => simp
      | ok u =>
        cases u
        cases hc : (deploy_config w env.configFolder (dryRunOf env)
            (useWhitelistOf env) (forceConfigOf env)).1 with
        | error e => simp
        | ok u =>
          cases u
          simp

/-- When the required variables are missing, `main` exits 1 before any
node activity. -/
theorem mainRun_missing_req (env : Env) (w : World)
    (hreq : check_required_env_vars [env.node, env.jwt, env.configFolder] = false) :
    mainRun env w = (1, []) := by
  unfold mainRun
  rw [hreq]
  simp

/-- When the health status is not `ok`, `main` exits 1 right after the
health check. -/
theorem mainRun_health_fail (env : Env) (w : World)
    (hreq : check_required_env_vars [env.node, env.jwt, env.configFolder] = true)
    (hbad : w.health ≠ some "ok") :
    mainRun env w = (1, [.healthCheck]) := by
  unfold mainRun
  rw [hreq]
  simp [hbad]

/-- Every event of a run is the health check or an event of one of the
three deployment steps, called with the flags `main` computes. -/
theorem mainRun_mem_cases (env : Env) (w : World) (ev : Event)
    (h : ev ∈ (mainRun env w).2) :
    ev = Event.healthCheck
      ∨ ev ∈ (deploy_secrets w env.secretsFile (dryRunOf env) (replaceSecretsOf env)).2
      ∨ ev ∈ (deploy_variables w env.variablesFile (dryRunOf env)).2
      ∨ ev ∈ (deploy_config w env.configFolder (dryRunOf env)
          (useWhitelistOf env) (forceConfigOf env)).2 := by
  unfold mainRun at h
  split at h
  · simp at h
  · split at h
    · simp at h
      simp [h]
    · cases hs : (deploy_secrets w env.secretsFile (dryRunOf env) (replaceSecretsOf env)).1 with
      | error e =>
        simp only [hs] at h
        simp at h
        tauto
      | ok u =>
        cases u
        simp only [hs] at h
        cases hv : (deploy_variables w env.variablesFile (dryRunOf env)).1 with
        | error e =>
          simp only [hv] at h
          simp at h
          tauto
        | ok u =>
          cases u
          simp only [hv] at h
          cases hc : (deploy_config w env.configFolder (dryRunOf env)
              (useWhitelistOf env) (forceConfigOf env)).1 with
          | error e =>
            simp only [hc] at h
            simp at h
            tauto
          | ok u =>
            cases u
            simp only [hc] at h
            simp at h
            tauto

/-- Claim C4: for every run that passes the pre-flight input check and
has dry run enabled, the health-check call always occurs and no
mutating node call (secrets create, secrets replace, variables upload,
config upload) is ever made. -/
theorem dry_run_no_mutations (env : Env) (w : World)
    (hreq : check_required_env_vars [env.node, env.jwt, env.configFolder] = true)
    (hdry : dryRunOf env = true) :
    Event.healthCheck ∈ (mainRun env w).2
      ∧ ∀ ev ∈ (mainRun env w).2, isMutating ev = false := by
  refine ⟨mainRun_health_mem env w hreq, ?_⟩
  intro ev hev
  rcases mainRun_mem_cases env w ev hev with h | h | h | h
  · simp [h, isMutating]
  · rw [hdry] at h
    have hx := deploy_secrets_dry_events w env.secretsFile (replaceSecretsOf env) ev h
    simp [hx, isMutating]
  · rw [hdry] at h
    have hx := deploy_variables_dry_events w env.variablesFile ev h
    simp [hx, isMutating]
  · rw [hdry] at h
    have hx := deploy_config_dry_events w env.configFolder (useWhitelistOf env)
      (forceConfigOf env) ev h
    simp [hx, isMutating]

/-- Claim C7: a present secrets source whose content fails to parse,
with dry run off, aborts the run with exit code 1 right after the
secrets step starts: neither the variables step nor the config step is
reached. -/
theorem secrets_parse_error_aborts (env : Env) (w : World) (m : String)
    (hreq : check_required_env_vars [env.node, env.jwt, env.configFolder] = true)
    (hok : w.health = some "ok")
    (hsf : truthy env.secretsFile = true)
    (hjson : w.readJson (env.secretsFile.getD "") = .error m)
    (hdry : dryRunOf env = false) :
    mainRun env w = (1, [.healthCheck, .startSecrets]) := by
  rw [mainRun_eq env w hreq hok]
  rw [deploy_secrets_parse_error w env.secretsFile (dryRunOf env)
    (replaceSecretsOf env) m hsf hjson]
  simp [raised]

/-- Claim C9: even with dry run enabled, a malformed secrets or
variables source aborts the run with exit code 1, because each source
is parsed before the dry-run flag is consulted. -/
theorem dry_run_parse_error_aborts (env : Env) (w : World) (m : String)
    (hreq : check_required_env_vars [env.node, env.jwt, env.configFolder] = true)
    (hok : w.health = some "ok")
    (hdry : dryRunOf env = true) :
    (truthy env.secretsFile = true →
      w.readJson (env.secretsFile.getD "") = .error m → (mainRun env w).1 = 1)
    ∧ (truthy env.variablesFile = true →
      w.readJson (env.variablesFile.getD "") = .error m → (mainRun env w).1 = 1) := by
  constructor
  · intro hsf hjson
    rw [mainRun_eq env w hreq hok]
    rw [deploy_secrets_parse_error w env.secretsFile (dryRunOf env)
      (replaceSecretsOf env) m hsf hjson]
    simp [raised]
  · intro hvf hjson
    rw [mainRun_eq env w hreq hok]
    rw [deploy_variables_parse_error w env.variablesFile (dryRunOf env) m hvf hjson]
    cases hs : (deploy_secrets w env.secretsFile (dryRunOf env) (replaceSecretsOf env)).1 with
    | error e => simp [hs, raised]
    | ok u =>
      cases u
      simp [hs, raised]

/-- The variables step never emits a secrets node call. -/
theorem deploy_variables_count_secrets (w : World) (vf : Option String) (d : Bool) :
    (deploy_variables w vf d).2.count Event.secretsReplace = 0
      ∧ (deploy_variables w vf d).2.count Event.secretsCreate = 0 := by
  constructor <;>
  · rw [List.count_eq_zero]
    intro hmem
    rcases deploy_variables_events w vf d _ hmem with h | h <;> simp at h

/-- The config step never emits a secrets node call. -/
theorem deploy_config_count_secrets (w : World) (cf : Option String) (d u f : Bool) :
    (deploy_config w cf d u f).2.count Event.secretsReplace = 0
      ∧ (deploy_config w cf d u f).2.count Event.secretsCreate = 0 := by
  constructor <;>
  · rw [List.count_eq_zero]
    intro hmem
    rcases deploy_config_events w cf d u f _ hmem with h | h <;> simp at h

/-- For any event other than the health check that the variables and
config steps never emit, its number of occurrences in the run's trace
equals its number of occurrences in the secrets step's trace. -/
theorem mainRun_secrets_count (env : Env) (w : World) (a : Event)
    (hreq : check_required_env_vars [env.node, env.jwt, env.configFolder] = true)
    (hok : w.health = some "ok")
    (hah : a ≠ Event.healthCheck)
    (hav : (deploy_variables w env.variablesFile (dryRunOf env)).2.count a = 0)
    (hac : (deploy_config w env.configFolder (dryRunOf env)
        (useWhitelistOf env) (forceConfigOf env)).2.count a = 0) :
    (mainRun env w).2.count a =
      (deploy_secrets w env.secretsFile (dryRunOf env) (replaceSecretsOf env)).2.count a := by
  rw [mainRun_eq env w hreq hok]
  cases hs : (deploy_secrets w env.secretsFile (dryRunOf env) (replaceSecretsOf env)).1 with
  | error e => simp [hs, raised, List.count_cons, hah]
  | ok u =>
    cases u
    cases hv : (deploy_variables w env.variablesFile (dryRunOf env)).1 with
    | error e => simp [hs, hv, raised, List.count_cons, List.count_append, hav, hah]
    | ok u =>
      cases u
      cases hc : (deploy_config w env.configFolder (dryRunOf env)
          (useWhitelistOf env) (forceConfigOf env)).1 with
      | error e =>
        simp [hs, hv, hc, raised, List.count_cons, List.count_append, hav, hac, hah]
      | ok u =>
        cases u
        simp [hs, hv, hc, raised, List.count_cons, List.count_append, hav, hac, hah]

/-- Claim C6: with a present, well-formed secrets source and dry run
off, exactly one secrets node call is made over the whole run: a
replace call and no create call when `replace_secrets` is set, a create
call and no replace call otherwise. -/
theorem secrets_call_counts (env : Env) (w : World)
    (hreq : check_required_env_vars [env.node, env.jwt, env.configFolder] = true)
    (hok : w.health = some "ok")
    (hsf : truthy env.secretsFile = true)
    (hjson : w.readJson (env.secretsFile.getD "") = .ok ())
    (hdry : dryRunOf env = false) :
    (replaceSecretsOf env = true →
      (mainRun env w).2.count Event.secretsReplace = 1
        ∧ (mainRun env w).2.count Event.secretsCreate = 0)
    ∧ (replaceSecretsOf env = false →
      (mainRun env w).2.count Event.secretsCreate = 1
        ∧ (mainRun env w).2.count Event.secretsReplace = 0) := by
  have hrep := mainRun_secrets_count env w Event.secretsReplace hreq hok (by simp)
    (deploy_variables_count_secrets w env.variablesFile (dryRunOf env)).1
    (deploy_config_count_secrets w env.configFolder (dryRunOf env)
      (useWhitelistOf env) (forceConfigOf env)).1
  have hcre := mainRun_secrets_count env w Event.secretsCreate hreq hok (by simp)
    (deploy_variables_count_secrets w env.variablesFile (dryRunOf env)).2
    (deploy_config_count_secrets w env.configFolder (dryRunOf env)
      (useWhitelistOf env) (forceConfigOf env)).2
  rw [hdry] at hrep hcre
  rw [deploy_secrets_live w env.secretsFile (replaceSecretsOf env) hsf hjson] at hrep hcre
  constructor
  · intro hr
    rw [hr] at hrep hcre
    simp at hrep hcre
    exact ⟨hrep, hcre⟩
  · intro hr
    rw [hr] at hrep hcre
    simp at hrep hcre
    exact ⟨hcre, hrep⟩

/-- The spec's example tree: `pipes/a.conf.json`, `systems/b.conf.json`
and `other/c.conf.json`, no whitelist file. -/
def treeEx : ConfigTree :=
  { rootBase := "cfg"
    files := [⟨["pipes"], "a.conf.json"⟩, ⟨["systems"], "b.conf.json"⟩,
      ⟨["other"], "c.conf.json"⟩]
    whitelistContent := none }

/-- A tree with a whitelist file listing only `pipes/a.conf.json`. -/
def treeWl : ConfigTree :=
  { rootBase := "cfg"
    files := [⟨["pipes"], "a.conf.json"⟩, ⟨["systems"], "b.conf.json"⟩]
    whitelistContent := some ["pipes/a.conf.json"] }

/-- A healthy node where every call succeeds and every source parses. -/
def wOk : World :=
  { tree := treeEx
    packagingIoError := false
    readJson := fun _ => .ok ()
    health := some "ok"
    putSecretsResult := .ok ()
    postSecretsResult := .ok ()
    putEnvResult := .ok ()
    putConfigResult := .ok () }

/-- Like `wOk` but the secrets create call raises an upload error. -/
def wSecretsFail : World :=
  { wOk with postSecretsResult := .error "UploadError" }

/-- Like `wOk` but the secrets file fails to parse. -/
def wBadSecretsJson : World :=
  { wOk with readJson := fun f => if f == "s.json" then .error "ParseError" else .ok () }

/-- Like `wOk` but packaging hits an I/O error. -/
def wPackFail : World :=
  { wOk with packagingIoError := true }

/-- A run supplying all three sources with dry run explicitly off. -/
def envAll : Env :=
  { node := some "n", jwt := some "j", configFolder := some "cfg"
    forceConfig := none, secretsFile := some "s.json", replaceSecrets := none
    variablesFile := some "v.json", useWhitelist := none, dryRun := some "false"
    writeSummary := none }

/-- A run supplying all three sources, dry run left at its default. -/
def envDry : Env :=
  { envAll with dryRun := none }

/-- A run with only the config folder, dry run left at its default. -/
def envDryDefault : Env :=
  { envAll with secretsFile := none, variablesFile := none, dryRun := none }

/-- A run with only the config folder, dry run explicitly off. -/
def envLive : Env :=
  { envDryDefault with dryRun := some "false" }

/-- A run with no config folder supplied. -/
def envNoConfig : Env :=
  { envAll with configFolder := none }

/-- Claim C1 fails on the code: in a run with a healthy node and
well-formed sources, an upload error raised while deploying secrets
aborts the whole run with exit code 1 and the variables and config
steps are never attempted, although their sources are present. -/
theorem step_failure_not_isolated :
    wSecretsFail.health = some "ok"
      ∧ wSecretsFail.readJson "s.json" = .ok ()
      ∧ truthy envAll.variablesFile = true
      ∧ truthy envAll.configFolder = true
      ∧ (mainRun envAll wSecretsFail).1 = 1
      ∧ Event.startVariables ∉ (mainRun envAll wSecretsFail).2
      ∧ Event.startConfig ∉ (mainRun envAll wSecretsFail).2 := by
  refine ⟨rfl, rfl, by decide, by decide, ?_, ?_, ?_⟩ <;> decide

/-- Claim C1 amended: the three deployment steps run inside a single
exception handler, so a failure raised in the secrets step (for example
an upload error) aborts the whole run with exit code 1 and prevents the
variables and config steps from being attempted, exactly like a
health-check or JSON parse failure does. -/
theorem secrets_failure_aborts_run (env : Env) (w : World)
    (hreq : check_required_env_vars [env.node, env.jwt, env.configFolder] = true)
    (hok : w.health = some "ok")
    (hfail : raised (deploy_secrets w env.secretsFile (dryRunOf env)
        (replaceSecretsOf env)).1 = true) :
    (mainRun env w).1 = 1
      ∧ Event.startVariables ∉ (mainRun env w).2
      ∧ Event.startConfig ∉ (mainRun env w).2 := by
  have hmain : mainRun env w
      = (1, Event.healthCheck :: (deploy_secrets w env.secretsFile (dryRunOf env)
          (replaceSecretsOf env)).2) := by
    rw [mainRun_eq env w hreq hok]
    simp [hfail]
  rw [hmain]
  refine ⟨rfl, ?_, ?_⟩
  · intro hmem
    rcases List.mem_cons.mp hmem with h | h
    · simp at h
    · rcases deploy_secrets_events w env.secretsFile (dryRunOf env)
        (replaceSecretsOf env) _ h with h1 | ⟨_, h1⟩ | ⟨_, h1⟩ <;> simp at h1
  · intro hmem
    rcases List.mem_cons.mp hmem with h | h
    · simp at h
    · rcases deploy_secrets_events w env.secretsFile (dryRunOf env)
        (replaceSecretsOf env) _ h with h1 | ⟨_, h1⟩ | ⟨_, h1⟩ <;> simp at h1

/-- Claim C5 fails on the code: `INPUT_CONFIG_FOLDER` is one of the
required variables, so a run with no config folder supplied does not
proceed with the config step absent: it exits 1 before any node
activity. -/
theorem missing_config_folder_fatal :
    envNoConfig.node.isSome = true
      ∧ envNoConfig.jwt.isSome = true
      ∧ envNoConfig.configFolder = none
      ∧ mainRun envNoConfig wOk = (1, []) := by
  refine ⟨rfl, rfl, rfl, ?_⟩
  decide

/-- Claim C2 names a real code defect: when packaging hits an I/O
error, `create_zipped_config` returns `None`; under dry run the config
step then reports the simulated outcome and the run exits 0, silently
treating the failed packaging as nothing to deploy, and with dry run
off the step goes on to `open(None)` — it raises a `TypeError` instead
of reporting a packaging failure. -/
theorem packaging_failure_mishandled :
    create_zipped_config wPackFail.tree wPackFail.packagingIoError
        (useWhitelistOf envDryDefault) = none
      ∧ mainRun envDryDefault wPackFail = (0, [.healthCheck, .startConfig])
      ∧ mainRun envLive wPackFail = (1, [.healthCheck, .startConfig]) := by
  refine ⟨rfl, ?_, ?_⟩ <;> decide

/-- When a truthy config folder is supplied, the config step always
logs its start, whatever packaging and the dry-run flag do. -/
theorem deploy_config_start_mem (w : World) (cf : Option String) (d u f : Bool)
    (h : truthy cf = true) :
    Event.startConfig ∈ (deploy_config w cf d u f).2 := by
  unfold deploy_config
  rw [h]
  simp only [if_true]
  cases hz : create_zipped_config w.tree w.packagingIoError u with
  | none => split <;> simp
  | some b => split <;> simp

/-- Claim C5 amended: the secrets and variables payloads are each
independently optional — an unset source file skips only its own step
while the run proceeds — but the config folder is a required input: a
run with no config folder supplied fails the pre-flight check and exits
1 with nothing attempted. -/
theorem payload_optionality (env : Env) (w : World) :
    (env.configFolder = none → mainRun env w = (1, []))
    ∧ (check_required_env_vars [env.node, env.jwt, env.configFolder] = true →
        w.health = some "ok" →
        env.secretsFile = none → env.variablesFile = none →
        Event.startSecrets ∉ (mainRun env w).2
          ∧ Event.startVariables ∉ (mainRun env w).2
          ∧ (truthy env.configFolder = true →
              Event.startConfig ∈ (mainRun env w).2)) := by
  constructor
  · intro h
    apply mainRun_missing_req
    rcases env with ⟨n, j, cf, _, _, _, _, _, _, _⟩
    simp at h
    subst h
    simp [check_required_env_vars]
  · intro hreq hok hsf hvf
    have hs := deploy_secrets_skip w env.secretsFile (dryRunOf env)
      (replaceSecretsOf env) (by rw [hsf]; rfl)
    have hv := deploy_variables_skip w env.variablesFile (dryRunOf env)
      (by rw [hvf]; rfl)
    have hmain : mainRun env w
        = ((if raised (deploy_config w env.configFolder (dryRunOf env)
                (useWhitelistOf env) (forceConfigOf env)).1 then 1 else 0),
           Event.healthCheck :: (deploy_config w env.configFolder (dryRunOf env)
              (useWhitelistOf env) (forceConfigOf env)).2) := by
      rw [mainRun_eq env w hreq hok, hs, hv]
      cases hc : (deploy_config w env.configFolder (dryRunOf env)
          (useWhitelistOf env) (forceConfigOf env)).1 with
      | error e => simp [hc, raised]
      | ok u =>
        cases u
        simp [hc, raised]
    rw [hmain]
    refine ⟨?_, ?_, ?_⟩
    · intro hmem
      rcases List.mem_cons.mp hmem with h | h
      · simp at h
      · rcases deploy_config_events w env.configFolder (dryRunOf env)
          (useWhitelistOf env) (forceConfigOf env) _ h with h1 | h1 <;> simp at h1
    · intro hmem
      rcases List.mem_cons.mp hmem with h | h
      · simp at h
      · rcases deploy_config_events w env.configFolder (dryRunOf env)
          (useWhitelistOf env) (forceConfigOf env) _ h with h1 | h1 <;> simp at h1
    · intro htr
      exact List.mem_cons_of_mem _ (deploy_config_start_mem w env.configFolder
        (dryRunOf env) (useWhitelistOf env) (forceConfigOf env) htr)

/-- `parse_bool_env` with default `False` returns true exactly on the
case-insensitive strings `true`, `1` and `yes`. -/
theorem parse_bool_env_true_iff (s : String) :
    parse_bool_env (some s) false = true ↔
      strLower s = "true" ∨ strLower s = "1" ∨ strLower s = "yes" := by
  simp only [parse_bool_env]
  split
  · rename_i h
    simp only [Bool.or_eq_true, beq_iff_eq] at h
    simp only [eq_self_iff_true, true_iff]
    exact or_assoc.mp h
  · rename_i h
    simp only [Bool.or_eq_true, beq_iff_eq] at h
    push_neg at h
    split
    · simp [h]
    · simp [h]

/-- Claim C10: with `main`'s fixed default `False`, the boolean flags
accept exactly the case-insensitive strings `true`/`1`/`yes` (true) and
`false`/`0`/`no` (false); any other supplied value yields false.  For
the dry-run flag, an absent variable defaults to the string `True`
(dry run enabled) while a supplied unrecognized value goes through the
parser and disables dry run. -/
theorem bool_flag_semantics :
    (∀ s : String, parse_bool_env (some s) false = true ↔
        (strLower s = "true" ∨ strLower s = "1" ∨ strLower s = "yes"))
    ∧ (∀ s : String, parse_bool_env (some s) false = false ↔
        ¬(strLower s = "true" ∨ strLower s = "1" ∨ strLower s = "yes"))
    ∧ (∀ s : String, strLower s = "false" ∨ strLower s = "0" ∨ strLower s = "no" →
        parse_bool_env (some s) false = false)
    ∧ (∀ env : Env, env.dryRun = none → dryRunOf env = true)
    ∧ (∀ env : Env, ∀ s : String, env.dryRun = some s →
        dryRunOf env = parse_bool_env (some s) false) := by
  refine ⟨parse_bool_env_true_iff, ?_, ?_, ?_, ?_⟩
  · intro s
    rw [Bool.eq_false_iff]
    exact not_congr (parse_bool_env_true_iff s)
  · intro s h
    rcases h with h | h | h <;> simp [parse_bool_env, h]
  · intro env h
    simp only [dryRunOf, h]
    decide
  · intro env s h
    simp only [dryRunOf, h]
    rfl

/-- A run supplying an unrecognized dry-run value. -/
def envBadDry : Env :=
  { envAll with dryRun := some "banana" }

/-- Witness for claim C3 at the whitelisted example tree:
`pipes/a.conf.json` is whitelisted and lands in the bundle. -/
theorem bundle_membership_witness :
    (⟨["pipes"], "a.conf.json"⟩ : FileEntry) ∈ (buildBundle treeWl true).entries :=
  ((bundle_membership treeWl true).1 ⟨["pipes"], "a.conf.json"⟩ (by decide)).mpr
    (by decide)

/-- Witness for claim C8: `pipes/a.conf.json` is a zip entry of the
whitelisted bundle of the example tree, hence also of the unrestricted
one. -/
theorem whitelist_restrictive_witness :
    "pipes/a.conf.json" ∈ arcnames (buildBundle treeWl false) :=
  whitelist_restrictive treeWl "pipes/a.conf.json" (by decide)

/-- Witness for claim C4 at a concrete dry run against a healthy node
with all three sources supplied. -/
theorem dry_run_no_mutations_witness :
    Event.healthCheck ∈ (mainRun envDry wOk).2
      ∧ ∀ ev ∈ (mainRun envDry wOk).2, isMutating ev = false :=
  dry_run_no_mutations envDry wOk (by decide) (by decide)

/-- Witness for claim C7 at a concrete live run whose secrets file
fails to parse: exit 1, no variables or config step. -/
theorem secrets_parse_error_aborts_witness :
    mainRun envAll wBadSecretsJson = (1, [.healthCheck, .startSecrets]) :=
  secrets_parse_error_aborts envAll wBadSecretsJson "ParseError" (by decide) rfl
    (by decide) rfl (by decide)

/-- Witness for claim C9: the same parse failure aborts the run even
with dry run enabled. -/
theorem dry_run_parse_error_aborts_witness :
    (mainRun envDry wBadSecretsJson).1 = 1 :=
  (dry_run_parse_error_aborts envDry wBadSecretsJson "ParseError" (by decide) rfl
    (by decide)).1 (by decide) rfl

/-- Witness for claim C6 at a concrete live run with
`replace_secrets` off: one create call, no replace call. -/
theorem secrets_call_counts_witness :
    (mainRun envAll wOk).2.count Event.secretsCreate = 1
      ∧ (mainRun envAll wOk).2.count Event.secretsReplace = 0 :=
  (secrets_call_counts envAll wOk (by decide) rfl (by decide) rfl (by decide)).2
    (by decide)

/-- Witness for the amended claim C1 at the concrete failing-upload
run. -/
theorem secrets_failure_aborts_run_witness :
    (mainRun envAll wSecretsFail).1 = 1
      ∧ Event.startVariables ∉ (mainRun envAll wSecretsFail).2
      ∧ Event.startConfig ∉ (mainRun envAll wSecretsFail).2 :=
  secrets_failure_aborts_run envAll wSecretsFail (by decide) rfl (by decide)

/-- Witness for the amended claim C5 at a run with no config folder
supplied: exit 1 with nothing attempted. -/
theorem payload_optionality_witness :
    mainRun envNoConfig wOk = (1, []) :=
  (payload_optionality envNoConfig wOk).1 rfl

/-- Witness for claim C10: `TRUE` parses to true, and a run supplying
the unrecognized dry-run value `banana` has dry run disabled. -/
theorem bool_flag_semantics_witness :
    parse_bool_env (some "TRUE") false = true ∧ dryRunOf envBadDry = false := by
  constructor
  · exact (bool_flag_semantics.1 "TRUE").mpr (by decide)
  · rw [bool_flag_semantics.2.2.2.2 envBadDry "banana" rfl]
    decide
